import Mathlib

/-!
Verification of the jsonb on-disk format decoder (`jsonb_parser/jsonb.py`).

The decoder is embedded shallowly: the input buffer is a list of byte
values, each Python function of the source becomes a Lean definition of
the same name (camel-cased where Python uses a leading underscore), and
Python exceptions become constructors of an explicit error type carried
in `Except`.
-/

namespace JsonbParser

/-- A byte buffer: the `data` argument of `JsonbParser`.  Elements are the
byte values of the buffer (0 ≤ b < 256 for real inputs). -/
abbrev Buffer := List Nat

/-- The exceptions the Python decoder can raise, one constructor per
distinct raise site or runtime error kind. -/
inductive PyErr where
  /-- raised by `struct.Struct.unpack_from` when fewer than 4 bytes are
  available at the requested offset (`_get32`). -/
  | structError
  /-- raised by `_parse_root` when neither the array nor the object bit is
  set in the root JsonContainer header. -/
  | badRootHeader (jc : Nat)
  /-- raised by `_parse_container` when neither the array nor the object
  bit is set in a nested JsonContainer header. -/
  | badContainerHeader (jc : Nat)
  /-- raised by `_parse_entry` on an unknown JsonEntry type code. -/
  | badEntryHeader (je : Nat)
  /-- raised by the strict utf-8 codec in `_parse_string` on invalid
  input bytes. -/
  | unicodeDecodeError
  /-- raised by `dict(...)` when a key is unhashable (a list or a dict). -/
  | typeError
  /-- raised by `rv[0]` in `_parse_root` when `rv` is the empty list. -/
  | indexError
  /-- raised by the numeric decoder on malformed numeric payloads. -/
  | badNumeric

/-- The decoded Python values: `None`, `bool`, `str`, numbers, `list` and
`dict`.  Strings are kept as their code-point sequences; dicts as their
insertion-ordered key/value entry lists; numbers as exact rationals with
NaN set apart. -/
inductive JValue where
  | jnull
  | jbool (b : Bool)
  | jstr (cps : List Nat)
  | jnum (q : ℚ)
  | jnan
  | jarr (elems : List JValue)
  | jobj (entries : List (JValue × JValue))

/- ---------------------------------------------------------------------
JsonEntry and JsonContainer bit-level accessors, converted line by line
from the constants and functions at the bottom of `jsonb.py`.
--------------------------------------------------------------------- -/

def JENTRY_OFFLENMASK : Nat := 0x0FFFFFFF
def JENTRY_TYPEMASK : Nat := 0x70000000
def JENTRY_HAS_OFF : Nat := 0x80000000

def JENTRY_ISSTRING : Nat := 0x00000000
def JENTRY_ISNUMERIC : Nat := 0x10000000
def JENTRY_ISBOOL_FALSE : Nat := 0x20000000
def JENTRY_ISBOOL_TRUE : Nat := 0x30000000
def JENTRY_ISNULL : Nat := 0x40000000
def JENTRY_ISCONTAINER : Nat := 0x50000000

/-- `jbe_offlenfld`: the offset-or-length field of a JsonEntry. -/
def jbe_offlenfld (je : Nat) : Nat := je &&& JENTRY_OFFLENMASK

/-- `jbe_has_off`: whether the JsonEntry HAS_OFF bit is set. -/
def jbe_has_off (je : Nat) : Bool := je &&& JENTRY_HAS_OFF != 0

/-- `jbe_type`: the type bits of a JsonEntry. -/
def jbe_type (je : Nat) : Nat := je &&& JENTRY_TYPEMASK

def JB_CMASK : Nat := 0x0FFFFFFF
def JB_FSCALAR : Nat := 0x10000000
def JB_FOBJECT : Nat := 0x20000000
def JB_FARRAY : Nat := 0x40000000

/-- `jc_size`: the size field of a JsonContainer header. -/
def jc_size (val : Nat) : Nat := val &&& JB_CMASK

/-- `jc_is_scalar`: whether a JsonContainer header has the scalar bit. -/
def jc_is_scalar (val : Nat) : Bool := val &&& JB_FSCALAR != 0

/-- `jc_is_object`: whether a JsonContainer header has the object bit. -/
def jc_is_object (val : Nat) : Bool := val &&& JB_FOBJECT != 0

/-- `jc_is_array`: whether a JsonContainer header has the array bit. -/
def jc_is_array (val : Nat) : Bool := val &&& JB_FARRAY != 0

/-- `int32_pad = [0, 3, 2, 1]`: padding bytes needed to realign a
position to a 4-byte boundary, indexed by `pos & 3`. -/
def int32_pad : List Nat := [0, 3, 2, 1]

/-- The padding expression `int32_pad[pos & 3]` applied to a (Python int)
position; Python's `& 3` on ints is the non-negative remainder mod 4,
which is `Int.emod`. -/
def pad (pos : ℤ) : ℤ := (int32_pad.getD (pos % 4).toNat 0 : ℤ)

/- ---------------------------------------------------------------------
Primitive buffer access.
--------------------------------------------------------------------- -/

/-- `_get32` / `struct.Struct("<I").unpack_from(data, pos)`: read a
little-endian uint32 at `pos`.  `unpack_from` accepts a negative offset,
counting from the end of the buffer, and raises `struct.error` when fewer
than 4 bytes are available; `none` stands for that exception. -/
def get32 (d : Buffer) (pos : ℤ) : Option Nat :=
  let p : ℤ := if pos < 0 then pos + d.length else pos
  if 0 ≤ p ∧ p.toNat + 4 ≤ d.length then
    some (d.getD p.toNat 0 + 256 * d.getD (p.toNat + 1) 0 +
      65536 * d.getD (p.toNat + 2) 0 + 16777216 * d.getD (p.toNat + 3) 0)
  else none

/-- Normalization of one end of a Python slice `data[a:b]` (step 1):
negative indices count from the end, then both ends are clamped into
`[0, len]`. -/
def pyBound (n : Nat) (i : ℤ) : Nat :=
  if i < 0 then (i + n).toNat else min i.toNat n

/-- Python slicing `data[a:b]` with the default step. -/
def pySlice (d : Buffer) (a b : ℤ) : Buffer :=
  (d.take (pyBound d.length b)).drop (pyBound d.length a)

/-- Whether a byte is a utf-8 continuation byte (`0x80 ≤ b ≤ 0xBF`). -/
def isCont (b : Nat) : Bool := 0x80 ≤ b && b ≤ 0xBF

/-- The strict utf-8 decoder used by `_decode_utf8`
(`codecs.lookup("utf8").decode`): rejects overlong forms, surrogates,
code points above U+10FFFF and truncated sequences; returns the decoded
code points. `none` stands for `UnicodeDecodeError`. -/
def utf8Decode : List Nat → Option (List Nat)
  | [] => some []
  | b :: rest =>
    if b < 0x80 then (utf8Decode rest).map (b :: ·)
    else if b < 0xC2 then none
    else if b < 0xE0 then
      match rest with
      | c1 :: rest2 =>
        if isCont c1 then
          (utf8Decode rest2).map (((b - 0xC0) * 64 + (c1 - 0x80)) :: ·)
        else none
      | [] => none
    else if b < 0xF0 then
      match rest with
      | c1 :: c2 :: rest2 =>
        if (if b = 0xE0 then 0xA0 ≤ c1 && c1 ≤ 0xBF
            else if b = 0xED then 0x80 ≤ c1 && c1 ≤ 0x9F
            else isCont c1) && isCont c2 then
          (utf8Decode rest2).map
            (((b - 0xE0) * 4096 + (c1 - 0x80) * 64 + (c2 - 0x80)) :: ·)
        else none
      | _ => none
    else if b < 0xF5 then
      match rest with
      | c1 :: c2 :: c3 :: rest2 =>
        if (if b = 0xF0 then 0x90 ≤ c1 && c1 ≤ 0xBF
            else if b = 0xF4 then 0x80 ≤ c1 && c1 ≤ 0x8F
            else isCont c1) && isCont c2 && isCont c3 then
          (utf8Decode rest2).map
            (((b - 0xF0) * 262144 + (c1 - 0x80) * 4096 +
              (c2 - 0x80) * 64 + (c3 - 0x80)) :: ·)
        else none
      | _ => none
    else none

/- ---------------------------------------------------------------------
The numeric decoder.
--------------------------------------------------------------------- -/

/-- Read a little-endian uint16 at index `i` of a byte list, with a
default of 0 out of range (callers bounds-check first). -/
def u16d (bs : List Nat) (i : Nat) : Nat := bs.getD i 0 + 256 * bs.getD (i + 1) 0

/-- Interpret a uint16 as a signed int16. -/
def toInt16 (w : Nat) : ℤ := if w < 0x8000 then (w : ℤ) else (w : ℤ) - 0x10000

/-- Modelled from the spec: `parse_numeric` lives in
`jsonb_parser/numeric.py`, which is not among the source files; this
definition follows spec §4.3.  The payload is `ndigits` (int16), `weight`
(int16), `sign` (uint16: 0x0000 positive, 0x4000 negative, 0xC000 NaN),
`dscale` (uint16), then `ndigits` little-endian int16 base-10000 digit
words; the value is sign · Σ digit i · 10000 ^ (weight − i).  The spec's
integer-versus-float distinction is collapsed into the exact rational
value; failures (short payloads, unrecognized sign bits) are `BadNumeric`. -/
def parse_numeric (bs : List Nat) : Except PyErr JValue :=
  if bs.length < 8 then .error .badNumeric
  else
    let ndigits := toInt16 (u16d bs 0)
    let weight := toInt16 (u16d bs 2)
    let sign := u16d bs 4
    if sign = 0xC000 then .ok .jnan
    else if sign = 0 ∨ sign = 0x4000 then
      let nd := ndigits.toNat
      if bs.length < 8 + 2 * nd then .error .badNumeric
      else
        let total : ℚ := (List.range nd).foldl
          (fun acc i =>
            acc + (toInt16 (u16d bs (8 + 2 * i)) : ℚ) *
              (10000 : ℚ) ^ (weight - i)) 0
        .ok (.jnum (if sign = 0x4000 then -total else total))
    else .error .badNumeric

/- ---------------------------------------------------------------------
Python dict construction: `dict(zip(res[:size], res[size:]))`.
--------------------------------------------------------------------- -/

/-- Whether a decoded value is hashable in Python (lists and dicts are
not, so they cannot be dict keys). -/
def isHashable : JValue → Bool
  | .jarr _ => false
  | .jobj _ => false
  | _ => true

/-- Python `==` restricted to the values that can appear as dict keys
(hashable decoded values): `None` equals `None`, strings compare by
content, booleans and numbers compare numerically (`True == 1`), NaN
equals nothing, and containers never reach key comparison. -/
def keyEq : JValue → JValue → Bool
  | .jnull, .jnull => true
  | .jbool a, .jbool b => decide (a = b)
  | .jbool a, .jnum q => decide ((if a then 1 else 0 : ℚ) = q)
  | .jnum q, .jbool a => decide (q = (if a then 1 else 0 : ℚ))
  | .jnum p, .jnum q => decide (p = q)
  | .jstr s, .jstr t => decide (s = t)
  | _, _ => false

/-- Python dict insertion: replace the value of the first equal key,
keeping the originally stored key and its position, or append a new
entry. -/
def dictInsert (m : List (JValue × JValue)) (k v : JValue) :
    List (JValue × JValue) :=
  match m with
  | [] => [(k, v)]
  | (k0, v0) :: rest =>
    if keyEq k0 k then (k0, v) :: rest else (k0, v0) :: dictInsert rest k v

/-- Python dict lookup `m[k]`: the value of the first equal key. -/
def pyLookup (m : List (JValue × JValue)) (k : JValue) : Option JValue :=
  match m with
  | [] => none
  | (k0, v0) :: rest => if keyEq k0 k then some v0 else pyLookup rest k

/-- The left-to-right insertions performed by `dict(pairs)`, starting
from a given dict; hashing an unhashable key raises `TypeError`. -/
def mkDictAux (acc : List (JValue × JValue)) :
    List (JValue × JValue) → Except PyErr (List (JValue × JValue))
  | [] => .ok acc
  | (k, v) :: rest =>
    if isHashable k then mkDictAux (dictInsert acc k v) rest
    else .error .typeError

/-- `dict(pairs)`: build a Python dict from a pair list. -/
def mkDict (pairs : List (JValue × JValue)) :
    Except PyErr (List (JValue × JValue)) :=
  mkDictAux [] pairs

/- ---------------------------------------------------------------------
Per-entry length computation (lines 113-117 of `jsonb.py`, shared
verbatim by `_parse_array` and `_parse_object`).
--------------------------------------------------------------------- -/

/-- The `flen` computed for one JsonEntry: the offset-or-length field,
minus the running `voff` when the HAS_OFF bit says the field stores the
offset of the value's end. -/
def entryFlen (je : Nat) (voff : ℤ) : ℤ :=
  if jbe_has_off je then (jbe_offlenfld je : ℤ) - voff else (jbe_offlenfld je : ℤ)

/- ---------------------------------------------------------------------
Non-recursive leaf parsers.
--------------------------------------------------------------------- -/

/-- `_parse_string`: decode `self.data[pos : pos + length]` as strict
utf-8.  Note the slice is Python slicing: it clamps, it does not
bounds-check. -/
def parseString (d : Buffer) (pos flen : ℤ) : Except PyErr JValue :=
  match utf8Decode (pySlice d pos (pos + flen)) with
  | some cps => .ok (.jstr cps)
  | none => .error .unicodeDecodeError

/-- `_parse_numeric`: skip the varlena header and alignment padding
(`off = 4 + int32_pad[pos & 3]`), then parse
`self.data[pos + off : pos + length]`. -/
def parseNumericEntry (d : Buffer) (pos flen : ℤ) : Except PyErr JValue :=
  parse_numeric (pySlice d (pos + (4 + pad pos)) (pos + flen))

/- ---------------------------------------------------------------------
The recursive container decoder (`_parse_container`, `_parse_array`,
`_parse_object`, `_parse_entry`).  The per-entry loop shared by
`_parse_array` and `_parse_object` becomes `parseEntries`; it carries two
invariants of the loop (the values area lies past the remaining entry
words, and the running `voff` is non-negative) which justify the
termination measure.  The measure is the remaining buffer span from the
current position, refined by a rank that orders the functions between two
recursive descents. -/

mutual

/-- `_parse_container`: realign the position to a 4-byte boundary
(`pos += int32_pad[pos & 3]`), read the JsonContainer header there, and
dispatch on its array/object bits. -/
def parseContainer (d : Buffer) (je : Nat) (pos : ℤ) : Except PyErr JValue :=
  match h : get32 d (pos + pad pos) with
  | none => .error .structError
  | some jc =>
    if jc_is_array jc then
      match parseArray d jc (pos + pad pos) with
      | .error e => .error e
      | .ok res => .ok (.jarr res)
    else if jc_is_object jc then parseObject d jc (pos + pad pos)
    else .error (.badContainerHeader jc)
termination_by (((d.length : ℤ) + 1 - pos).toNat) * 4 + 2
decreasing_by
  all_goals
    have hq : (0 : ℤ) ≤ pad pos := Int.natCast_nonneg _
    omega

/-- `_parse_array`: `size` JsonEntries follow the header at `pos + 4`; the
values area starts at `pos + 4 + 4 * size`; an empty container returns
the empty list at once. -/
def parseArray (d : Buffer) (jc : Nat) (pos : ℤ) :
    Except PyErr (List JValue) :=
  let size := jc_size jc
  if size = 0 then .ok []
  else
    parseEntries d (pos + 4 + 4 * (size : ℤ)) size (pos + 4) 0
      (by omega) (le_refl 0)
termination_by (((d.length : ℤ) + 1 - pos).toNat) * 4 + 1
decreasing_by omega

/-- `_parse_object`: `size * 2` JsonEntries follow the header; the first
`size` decoded values are the keys, the rest the values
(`dict(zip(res[:size], res[size:]))`). -/
def parseObject (d : Buffer) (jc : Nat) (pos : ℤ) : Except PyErr JValue :=
  let size := jc_size jc
  if size = 0 then .ok (.jobj [])
  else
    match parseEntries d (pos + 4 + 4 * (size : ℤ) * 2) (size * 2) (pos + 4) 0
        (by omega) (le_refl 0) with
    | .error e => .error e
    | .ok res =>
      match mkDict ((res.take size).zip (res.drop size)) with
      | .error e => .error e
      | .ok m => .ok (.jobj m)
termination_by (((d.length : ℤ) + 1 - pos).toNat) * 4 + 1
decreasing_by omega

/-- The entry loop shared by `_parse_array` and `_parse_object` (`for i in
range(...)`): read the JsonEntry word at `epos`, derive the child length
`flen` from the hybrid offset-or-length field, parse the child at
`vstart + voff`, then advance `voff` by `flen`. -/
def parseEntries (d : Buffer) (vstart : ℤ) (cnt : Nat) (epos voff : ℤ)
    (hvs : epos + 4 * (cnt : ℤ) ≤ vstart) (hv : 0 ≤ voff) :
    Except PyErr (List JValue) :=
  match cnt, hvs with
  | 0, _ => .ok []
  | c + 1, hvs =>
    match h : get32 d epos with
    | none => .error .structError
    | some je =>
      match parseEntry d je (vstart + voff) (entryFlen je voff) with
      | .error e => .error e
      | .ok obj =>
        match parseEntries d vstart c (epos + 4) (voff + entryFlen je voff)
            (by omega) (by unfold entryFlen; split <;> omega) with
        | .error e => .error e
        | .ok rest => .ok (obj :: rest)
termination_by (((d.length : ℤ) + 1 - epos).toNat) * 4
decreasing_by
  all_goals
    have hle : epos ≤ (d.length : ℤ) := by
      unfold get32 at h
      by_cases hneg : epos < 0
      · omega
      · simp only [if_neg hneg] at h
        split at h
        · omega
        · exact absurd h (by simp)
    omega

/-- `_parse_entry`: dispatch a JsonEntry to the parser for its type code. -/
def parseEntry (d : Buffer) (je : Nat) (pos : ℤ) (flen : ℤ) :
    Except PyErr JValue :=
  let typ := jbe_type je
  if typ = JENTRY_ISSTRING then parseString d pos flen
  else if typ = JENTRY_ISNUMERIC then parseNumericEntry d pos flen
  else if typ = JENTRY_ISCONTAINER then parseContainer d je pos
  else if typ = JENTRY_ISNULL then .ok .jnull
  else if typ = JENTRY_ISBOOL_TRUE then .ok (.jbool true)
  else if typ = JENTRY_ISBOOL_FALSE then .ok (.jbool false)
  else .error (.badEntryHeader je)
termination_by (((d.length : ℤ) + 1 - pos).toNat) * 4 + 3
decreasing_by omega

end

/-- `_parse_root`: the root element is a container at offset 0; a scalar
document is a 1-element array with the scalar bit set, unwrapped by
`rv[0]`. -/
def parseRoot (d : Buffer) : Except PyErr JValue :=
  match get32 d 0 with
  | none => .error .structError
  | some jc =>
    if jc_is_array jc then
      match parseArray d jc 0 with
      | .error e => .error e
      | .ok rv =>
        if jc_is_scalar jc then
          match rv with
          | [] => .error .indexError
          | x :: _ => .ok x
        else .ok (.jarr rv)
    else if jc_is_object jc then parseObject d jc 0
    else .error (.badRootHeader jc)

/-- `parse_jsonb`: the public entry point. -/
def parse_jsonb (d : Buffer) : Except PyErr JValue := parseRoot d

/- ---------------------------------------------------------------------
Concrete buffers used to exercise the decoder.
--------------------------------------------------------------------- -/

/-- Header `0x50000001` (array, scalar, count 1) and JEntry `0x30000000`
(bool true): the wrapped top-level scalar `true`. -/
def bufScalarTrue : Buffer := [1, 0, 0, 0x50, 0, 0, 0, 0x30]

/-- Header `0x50000001` and string JEntry `0x00000005` announcing 5 bytes,
but only 2 payload bytes are present: a truncated scalar string. -/
def bufTruncStr : Buffer := [1, 0, 0, 0x50, 5, 0, 0, 0, 104, 105]

/-- Header `0x20000001` (object, count 1) whose key JEntry `0x30000000`
is a boolean, not a string; the value JEntry `0x40000000` is null. -/
def bufBoolKey : Buffer := [1, 0, 0, 0x20, 0, 0, 0, 0x30, 0, 0, 0, 0x40]

/-- Header `0x50000000`: array and scalar bits set but count 0. -/
def bufScalarEmpty : Buffer := [0, 0, 0, 0x50]

/-- Header `0x20000002` (object, count 2) with two identical string keys
of one byte each (`a`) and the values null and true: duplicate keys. -/
def bufDupKeys : Buffer :=
  [2, 0, 0, 0x20,
   1, 0, 0, 0, 1, 0, 0, 0, 0, 0, 0, 0x40, 0, 0, 0, 0x30,
   97, 97]

/-- A buffer of nesting depth `k + 1`: `k` one-element arrays around an
empty array.  Each level is an array header of count 1 followed by a
container JEntry with a zero offset-or-length field. -/
def nestFrom : Nat → Buffer
  | 0 => [0, 0, 0, 0x40]
  | k + 1 => [1, 0, 0, 0x40, 0, 0, 0, 0x50] ++ nestFrom k

/-- The value `nestFrom k` decodes to: `k` singleton lists around `[]`. -/
def nestVal : Nat → JValue
  | 0 => .jarr []
  | k + 1 => .jarr [nestVal k]

/-- The root JsonContainer header of `nestFrom k`. -/
def nestHeader : Nat → Nat
  | 0 => 0x40000000
  | _ + 1 => 0x40000001

/-- The element list of the outermost array of `nestFrom k`. -/
def nestElems : Nat → List JValue
  | 0 => []
  | k + 1 => [nestVal k]

/- ---------------------------------------------------------------------
Basic facts about the primitive definitions.
--------------------------------------------------------------------- -/

/-- After `voff += flen` the running offset stays non-negative: when the
HAS_OFF bit is set the new offset is the raw field itself, otherwise the
raw field is added to the old offset. -/
theorem entryFlen_nonneg_add (je : Nat) (voff : ℤ) (hv : 0 ≤ voff) :
    0 ≤ voff + entryFlen je voff := by
  unfold entryFlen
  split <;> omega

/-- A successful `_get32` implies the requested position is at most the
buffer length. -/
theorem get32_le {d : Buffer} {pos : ℤ} {v : Nat} (h : get32 d pos = some v) :
    pos ≤ (d.length : ℤ) := by
  unfold get32 at h
  by_cases hneg : pos < 0
  · omega
  · simp only [if_neg hneg] at h
    split at h
    · omega
    · exact absurd h (by simp)

/- ---------------------------------------------------------------------
Unfolding equations for the well-founded definitions.
--------------------------------------------------------------------- -/

/-- Unfolding `parseEntries` at count 0. -/
theorem parseEntries_zero (d : Buffer) (vstart epos voff : ℤ)
    (hvs : epos + 4 * ((0 : Nat) : ℤ) ≤ vstart) (hv : 0 ≤ voff) :
    parseEntries d vstart 0 epos voff hvs hv = .ok [] := by
  rw [parseEntries.eq_def]

/-- Unfolding `parseEntries` at a successor count. -/
theorem parseEntries_succ (d : Buffer) (vstart : ℤ) (c : Nat) (epos voff : ℤ)
    (hvs : epos + 4 * ((c + 1 : Nat) : ℤ) ≤ vstart) (hv : 0 ≤ voff) :
    parseEntries d vstart (c + 1) epos voff hvs hv =
      match get32 d epos with
      | none => .error .structError
      | some je =>
        match parseEntry d je (vstart + voff) (entryFlen je voff) with
        | .error e => .error e
        | .ok obj =>
          match parseEntries d vstart c (epos + 4) (voff + entryFlen je voff)
              (by omega) (entryFlen_nonneg_add je voff hv) with
          | .error e => .error e
          | .ok rest => .ok (obj :: rest) := by
  rw [parseEntries.eq_def]
  rcases hg : get32 d epos with _ | je <;> simp

/-- Unfolding `parseArray`. -/
theorem parseArray_eq (d : Buffer) (jc : Nat) (pos : ℤ) :
    parseArray d jc pos =
      if jc_size jc = 0 then .ok []
      else parseEntries d (pos + 4 + 4 * (jc_size jc : ℤ)) (jc_size jc)
        (pos + 4) 0 (by omega) (le_refl 0) := by
  rw [parseArray.eq_def]

/-- Unfolding `parseObject`. -/
theorem parseObject_eq (d : Buffer) (jc : Nat) (pos : ℤ) :
    parseObject d jc pos =
      if jc_size jc = 0 then .ok (.jobj [])
      else
        match parseEntries d (pos + 4 + 4 * (jc_size jc : ℤ) * 2)
            (jc_size jc * 2) (pos + 4) 0 (by omega) (le_refl 0) with
        | .error e => .error e
        | .ok res =>
          match mkDict ((res.take (jc_size jc)).zip (res.drop (jc_size jc))) with
          | .error e => .error e
          | .ok m => .ok (.jobj m) := by
  rw [parseObject.eq_def]

/-- Unfolding `parseContainer`. -/
theorem parseContainer_eq (d : Buffer) (je : Nat) (pos : ℤ) :
    parseContainer d je pos =
      match get32 d (pos + pad pos) with
      | none => .error .structError
      | some jc =>
        if jc_is_array jc then
          match parseArray d jc (pos + pad pos) with
          | .error e => .error e
          | .ok res => .ok (.jarr res)
        else if jc_is_object jc then parseObject d jc (pos + pad pos)
        else .error (.badContainerHeader jc) := by
  rw [parseContainer.eq_def]
  rcases hg : get32 d (pos + pad pos) with _ | jc <;> simp

/-- Unfolding `parseEntry`. -/
theorem parseEntry_eq (d : Buffer) (je : Nat) (pos flen : ℤ) :
    parseEntry d je pos flen =
      if jbe_type je = JENTRY_ISSTRING then parseString d pos flen
      else if jbe_type je = JENTRY_ISNUMERIC then parseNumericEntry d pos flen
      else if jbe_type je = JENTRY_ISCONTAINER then parseContainer d je pos
      else if jbe_type je = JENTRY_ISNULL then .ok .jnull
      else if jbe_type je = JENTRY_ISBOOL_TRUE then .ok (.jbool true)
      else if jbe_type je = JENTRY_ISBOOL_FALSE then .ok (.jbool false)
      else .error (.badEntryHeader je) := by
  rw [parseEntry.eq_def]

/-- A successful `parseEntries` returns exactly `cnt` decoded values. -/
theorem parseEntries_length (d : Buffer) (vstart : ℤ) (cnt : Nat) :
    ∀ (epos voff : ℤ) hvs hv res,
      parseEntries d vstart cnt epos voff hvs hv = .ok res →
      res.length = cnt := by
  induction cnt with
  | zero =>
    intro epos voff hvs hv res h
    rw [parseEntries_zero] at h
    cases h
    rfl
  | succ c ih =>
    intro epos voff hvs hv res h
    rw [parseEntries_succ] at h
    rcases hg : get32 d epos with _ | je <;> rw [hg] at h <;> dsimp only at h
    · cases h
    · rcases he : parseEntry d je (vstart + voff) (entryFlen je voff)
        with e | obj <;> rw [he] at h <;> dsimp only at h
      · cases h
      · rcases hr : parseEntries d vstart c (epos + 4)
            (voff + entryFlen je voff) (by omega)
            (entryFlen_nonneg_add je voff hv) with e | rest <;>
          rw [hr] at h <;> dsimp only at h
        · cases h
        · cases h
          simp [ih _ _ _ _ _ hr]

/- ---------------------------------------------------------------------
Dict-key equality is a partial equivalence relation; dict construction
gives the last equal key its value.
--------------------------------------------------------------------- -/

/-- The boolean-as-number coercion used by `keyEq` is injective. -/
theorem ite_one_zero_inj {x y : Bool}
    (h : (if x = true then (1 : ℚ) else 0) = (if y = true then 1 else 0)) :
    x = y := by
  cases x <;> cases y <;> first | rfl | (exfalso; norm_num at h)

theorem keyEq_comm (a b : JValue) : keyEq a b = keyEq b a := by
  cases a <;> cases b <;> first | rfl | exact decide_eq_decide.mpr eq_comm

theorem keyEq_symm {a b : JValue} (h : keyEq a b = true) : keyEq b a = true := by
  rw [keyEq_comm]
  exact h

theorem keyEq_trans {a b c : JValue} (h1 : keyEq a b = true)
    (h2 : keyEq b c = true) : keyEq a c = true := by
  cases a <;> cases b <;> cases c <;>
    simp only [keyEq, decide_eq_true_eq] at * <;>
    first
      | rfl
      | exact h1.trans h2
      | exact ite_one_zero_inj (h1.trans h2)
      | (subst h1; exact h2)
      | (subst h2; exact h1)
      | simp_all

/-- Looking a key up after a dict insertion: the inserted value answers
every key equal to the inserted one; other keys are unaffected. -/
theorem dictInsert_lookup (m : List (JValue × JValue)) (k v k' : JValue) :
    pyLookup (dictInsert m k v) k' =
      if keyEq k k' = true then some v else pyLookup m k' := by
  induction m with
  | nil =>
    by_cases h : keyEq k k' = true <;> simp [dictInsert, pyLookup, h]
  | cons e rest ih =>
    obtain ⟨k0, v0⟩ := e
    by_cases h0 : keyEq k0 k = true
    · by_cases h' : keyEq k k' = true
      · have : keyEq k0 k' = true := keyEq_trans h0 h'
        simp [dictInsert, pyLookup, h0, h', this]
      · have : keyEq k0 k' = false := by
          rcases hkk : keyEq k0 k' with _ | _
          · rfl
          · exact absurd (keyEq_trans (keyEq_symm h0) hkk) (by simp [h'])
        simp [dictInsert, pyLookup, h0, h', this]
    · by_cases h1 : keyEq k0 k' = true
      · have : keyEq k k' = false := by
          rcases hkk : keyEq k k' with _ | _
          · rfl
          · exact absurd (keyEq_trans h1 (keyEq_symm hkk)) (by simp [h0])
        simp [dictInsert, pyLookup, h0, h1, this]
      · by_cases h' : keyEq k k' = true <;>
          simp [dictInsert, pyLookup, h0, h1, h', ih]

/-- Lookup after the insertions of `dict(pairs)`, relative to the dict
built so far: the last equal key among `pairs` wins, else whatever the
accumulator held. -/
theorem mkDictAux_lookup (pairs : List (JValue × JValue)) :
    ∀ acc m, mkDictAux acc pairs = .ok m → ∀ k,
      pyLookup m k =
        match pairs.reverse.find? (fun kv => keyEq kv.1 k) with
        | some kv => some kv.2
        | none => pyLookup acc k := by
  induction pairs with
  | nil =>
    intro acc m h k
    cases h
    rfl
  | cons e rest ih =>
    obtain ⟨k0, v0⟩ := e
    intro acc m h k
    rw [mkDictAux] at h
    split at h
    · rw [ih _ _ h k, List.reverse_cons, List.find?_append]
      rcases hf : rest.reverse.find? (fun kv => keyEq kv.1 k) with _ | kv <;>
        rw [hf] <;> dsimp only
      · rw [dictInsert_lookup]
        by_cases hk : keyEq k0 k = true <;> simp [List.find?, hk]
      · simp
    · cases h

/-- `dict(pairs)` lookup: the value of the last pair whose key equals the
query (Python "last wins" semantics for duplicate keys). -/
theorem mkDict_lookup (pairs m : List (JValue × JValue))
    (h : mkDict pairs = .ok m) (k : JValue) :
    pyLookup m k =
      (pairs.reverse.find? (fun kv => keyEq kv.1 k)).map (·.2) := by
  rw [mkDictAux_lookup pairs [] m h k]
  rcases hf : pairs.reverse.find? (fun kv => keyEq kv.1 k) with _ | kv <;>
    rw [hf] <;> simp [pyLookup]

/-- `dict(pairs)` succeeds exactly when every key is hashable. -/
theorem mkDictAux_ok_iff (pairs : List (JValue × JValue)) :
    ∀ acc, (∃ m, mkDictAux acc pairs = .ok m) ↔
      pairs.all (fun kv => isHashable kv.1) := by
  induction pairs with
  | nil => intro acc; simp [mkDictAux]
  | cons e rest ih =>
    intro acc
    obtain ⟨k0, v0⟩ := e
    by_cases h : isHashable k0 = true <;> simp [mkDictAux, h, ih]

/-- The only exception `dict(pairs)` raises is `TypeError`. -/
theorem mkDictAux_error (pairs : List (JValue × JValue)) :
    ∀ acc e, mkDictAux acc pairs = .error e → e = .typeError := by
  induction pairs with
  | nil => intro acc e h; cases h
  | cons kv rest ih =>
    intro acc e h
    rw [mkDictAux] at h
    split at h
    · exact ih _ _ h
    · cases h
      rfl

/- ---------------------------------------------------------------------
Dispatch lemmas for `_parse_entry`, one per type code.
--------------------------------------------------------------------- -/

theorem parseEntry_isstring {je : Nat} (d : Buffer) (pos flen : ℤ)
    (h : jbe_type je = JENTRY_ISSTRING) :
    parseEntry d je pos flen = parseString d pos flen := by
  rw [parseEntry_eq, if_pos h]

theorem parseEntry_isnumeric {je : Nat} (d : Buffer) (pos flen : ℤ)
    (h : jbe_type je = JENTRY_ISNUMERIC) :
    parseEntry d je pos flen = parseNumericEntry d pos flen := by
  simp [parseEntry_eq, h, JENTRY_ISSTRING, JENTRY_ISNUMERIC]

theorem parseEntry_iscontainer {je : Nat} (d : Buffer) (pos flen : ℤ)
    (h : jbe_type je = JENTRY_ISCONTAINER) :
    parseEntry d je pos flen = parseContainer d je pos := by
  simp [parseEntry_eq, h, JENTRY_ISSTRING, JENTRY_ISNUMERIC,
    JENTRY_ISCONTAINER]

theorem parseEntry_isnull {je : Nat} (d : Buffer) (pos flen : ℤ)
    (h : jbe_type je = JENTRY_ISNULL) :
    parseEntry d je pos flen = .ok .jnull := by
  simp [parseEntry_eq, h, JENTRY_ISSTRING, JENTRY_ISNUMERIC,
    JENTRY_ISCONTAINER, JENTRY_ISNULL]

theorem parseEntry_isbool_true {je : Nat} (d : Buffer) (pos flen : ℤ)
    (h : jbe_type je = JENTRY_ISBOOL_TRUE) :
    parseEntry d je pos flen = .ok (.jbool true) := by
  simp [parseEntry_eq, h, JENTRY_ISSTRING, JENTRY_ISNUMERIC,
    JENTRY_ISCONTAINER, JENTRY_ISNULL, JENTRY_ISBOOL_TRUE]

theorem parseEntry_isbool_false {je : Nat} (d : Buffer) (pos flen : ℤ)
    (h : jbe_type je = JENTRY_ISBOOL_FALSE) :
    parseEntry d je pos flen = .ok (.jbool false) := by
  simp [parseEntry_eq, h, JENTRY_ISSTRING, JENTRY_ISNUMERIC,
    JENTRY_ISCONTAINER, JENTRY_ISNULL, JENTRY_ISBOOL_TRUE,
    JENTRY_ISBOOL_FALSE]

theorem pad_zero (q : ℤ) (h : q % 4 = 0) : pad q = 0 := by
  unfold pad
  rw [h]
  rfl

theorem nestFrom_succ (k : Nat) :
    nestFrom (k + 1) = [1, 0, 0, 0x40, 0, 0, 0, 0x50] ++ nestFrom k := rfl

theorem nestFrom_length (k : Nat) : (nestFrom k).length = 8 * k + 4 := by
  induction k with
  | zero => rfl
  | succ k ih => simp [nestFrom_succ, ih]; omega

theorem get32_append (pre l : Buffer) (j : ℤ) (h0 : 0 ≤ j)
    (hj : j.toNat + 4 ≤ l.length) :
    get32 (pre ++ l) ((pre.length : ℤ) + j) = get32 l j := by
  unfold get32
  simp only [List.length_append]
  rw [if_neg (by omega : ¬ ((pre.length : ℤ) + j < 0)), if_neg (by omega : ¬ j < 0)]
  rw [if_pos (by constructor <;> omega), if_pos (by constructor <;> omega)]
  have hbase : ((pre.length : ℤ) + j).toNat = pre.length + j.toNat := by omega
  rw [hbase]
  have e : ∀ t, (pre ++ l).getD (pre.length + j.toNat + t) 0 = l.getD (j.toNat + t) 0 := by
    intro t
    rw [show pre.length + j.toNat + t = pre.length + (j.toNat + t) by omega,
      List.getD_append_right]
    · simp
    · omega
  have e0 : (pre ++ l).getD (pre.length + j.toNat) 0 = l.getD j.toNat 0 := by
    have := e 0
    simpa using this
  rw [e0, e 1, e 2, e 3]

theorem get32_prefix (l1 l2 : Buffer) (j : ℤ) (h0 : 0 ≤ j)
    (hj : j.toNat + 4 ≤ l1.length) :
    get32 (l1 ++ l2) j = get32 l1 j := by
  unfold get32
  simp only [List.length_append]
  rw [if_neg (by omega : ¬ j < 0), if_neg (by omega : ¬ j < 0)]
  rw [if_pos (by constructor <;> omega), if_pos (by constructor <;> omega)]
  have e : ∀ t, t ≤ 3 → (l1 ++ l2).getD (j.toNat + t) 0 = l1.getD (j.toNat + t) 0 := by
    intro t ht
    rw [List.getD_append]
    omega
  have e0 : (l1 ++ l2).getD j.toNat 0 = l1.getD j.toNat 0 := by
    have := e 0 (by omega)
    simpa using this
  rw [e0, e 1 (by omega), e 2 (by omega), e 3 (by omega)]

theorem get32_nestFrom_zero (k : Nat) :
    get32 (nestFrom k) 0 = some (nestHeader k) := by
  cases k with
  | zero => rfl
  | succ k =>
    rw [nestFrom_succ, get32_prefix _ _ 0 le_rfl (by norm_num)]
    rfl

theorem nestVal_eq (k : Nat) : nestVal k = .jarr (nestElems k) := by
  cases k <;> rfl

theorem nestHeader_is_array (k : Nat) : jc_is_array (nestHeader k) = true := by
  cases k with
  | zero => decide
  | succ m =>
    show jc_is_array 0x40000001 = true
    decide

theorem nest_parseArray (k : Nat) :
    ∀ pre : Buffer, pre.length % 4 = 0 →
      parseArray (pre ++ nestFrom k) (nestHeader k) (pre.length : ℤ) =
        .ok (nestElems k) := by
  induction k with
  | zero =>
    intro pre h4
    rw [parseArray_eq]
    simp [nestHeader, nestElems, show jc_size 0x40000000 = 0 from by decide]
  | succ k ih =>
    intro pre h4
    rw [show nestHeader (k + 1) = 0x40000001 from rfl, parseArray_eq]
    simp only [show jc_size 0x40000001 = 1 from by decide]
    rw [if_neg (by norm_num)]
    rw [parseEntries_succ]
    have hg1 : get32 (pre ++ nestFrom (k + 1)) ((pre.length : ℤ) + 4) =
        some 0x50000000 := by
      rw [get32_append pre _ 4 (by norm_num) (by rw [nestFrom_length]; omega)]
      rw [nestFrom_succ, get32_prefix _ _ 4 (by norm_num) (by simp)]
      rfl
    rw [hg1]
    try dsimp only
    rw [parseEntry_iscontainer _ _ _
      (show jbe_type 0x50000000 = JENTRY_ISCONTAINER from by decide)]
    rw [parseEntries_zero]
    have hcont : parseContainer (pre ++ nestFrom (k + 1)) 0x50000000
        ((pre.length : ℤ) + 4 + 4 * ((1 : Nat) : ℤ) + 0) = .ok (nestVal k) := by
      rw [parseContainer_eq]
      rw [pad_zero _ (by push_cast; omega)]
      have hg2 : get32 (pre ++ nestFrom (k + 1))
          ((pre.length : ℤ) + 4 + 4 * ((1 : Nat) : ℤ) + 0 + 0) =
          some (nestHeader k) := by
        have h1 := get32_append (pre ++ [1, 0, 0, 0x40, 0, 0, 0, 0x50])
          (nestFrom k) 0 le_rfl (by rw [nestFrom_length]; omega)
        rw [get32_nestFrom_zero] at h1
        rw [List.append_assoc, ← nestFrom_succ] at h1
        convert h1 using 2
        simp
        ring
      rw [hg2]
      dsimp only
      rw [nestHeader_is_array, if_pos rfl]
      have hIH : parseArray (pre ++ nestFrom (k + 1)) (nestHeader k)
          ((pre.length : ℤ) + 4 + 4 * ((1 : Nat) : ℤ) + 0 + 0) =
          .ok (nestElems k) := by
        have h2 := ih (pre ++ [1, 0, 0, 0x40, 0, 0, 0, 0x50]) (by simp; omega)
        rw [List.append_assoc, ← nestFrom_succ] at h2
        convert h2 using 2
        simp
        ring
      rw [hIH]
      dsimp only
      rw [nestVal_eq]
    rw [hcont]
    rfl


theorem nestHeader_not_scalar (k : Nat) : jc_is_scalar (nestHeader k) = false := by
  cases k with
  | zero => decide
  | succ m =>
    show jc_is_scalar 0x40000001 = false
    decide

theorem nest_decode (n : Nat) : parse_jsonb (nestFrom n) = .ok (nestVal n) := by
  have h := nest_parseArray n [] (by decide)
  simp only [List.nil_append, List.length_nil, Nat.cast_zero] at h
  unfold parse_jsonb parseRoot
  rw [get32_nestFrom_zero]
  dsimp only
  rw [nestHeader_is_array, if_pos rfl]
  rw [h]
  dsimp only
  rw [nestHeader_not_scalar, if_neg (by simp)]
  rw [nestVal_eq]


/-- A successful `_parse_array` returns exactly `jc_size jc` values. -/
theorem parseArray_length (d : Buffer) (jc : Nat) (pos : ℤ)
    (res : List JValue) (h : parseArray d jc pos = .ok res) :
    res.length = jc_size jc := by
  rw [parseArray_eq] at h
  split at h
  next hs => cases h; simp [hs]
  next hs => exact (parseEntries_length _ _ _ _ _ _ _ _ h).trans rfl

/-- The value of `pad` as the spec words it. -/
theorem pad_val (pos : ℤ) : pad pos = (4 - pos % 4) % 4 := by
  have h4 : pos % 4 = 0 ∨ pos % 4 = 1 ∨ pos % 4 = 2 ∨ pos % 4 = 3 := by omega
  rcases h4 with h | h | h | h <;> unfold pad <;> rw [h] <;> decide

/- ---------------------------------------------------------------------
The claims.
--------------------------------------------------------------------- -/

/-- C7: for every child entry of container type at absolute position
`pos`, the decoder realigns the position up to the next 4-byte boundary
before reading the nested JContainer header: the padded position is
`pos + ((4 - pos mod 4) mod 4)`, the least multiple of 4 that is at least
`pos`, adding zero to three padding bytes; the nested header is then read
at the padded position (realigning the padded position is a no-op). -/
theorem claim7_container_alignment (d : Buffer) (je : Nat) (pos : ℤ) :
    pos + pad pos = pos + (4 - pos % 4) % 4 ∧
    pos ≤ pos + pad pos ∧
    pos + pad pos < pos + 4 ∧
    (pos + pad pos) % 4 = 0 ∧
    (∀ r : ℤ, pos ≤ r → r % 4 = 0 → pos + pad pos ≤ r) ∧
    parseContainer d je pos = parseContainer d je (pos + pad pos) := by
  have h4 : pos % 4 = 0 ∨ pos % 4 = 1 ∨ pos % 4 = 2 ∨ pos % 4 = 3 := by omega
  have hfacts : 0 ≤ pad pos ∧ pad pos ≤ 3 ∧ (pos + pad pos) % 4 = 0 ∧
      pad pos = (4 - pos % 4) % 4 := by
    rcases h4 with h | h | h | h
    · have hv : pad pos = 0 := by unfold pad; rw [h]; decide
      exact ⟨by omega, by omega, by omega, by rw [hv, h]; decide⟩
    · have hv : pad pos = 3 := by unfold pad; rw [h]; decide
      exact ⟨by omega, by omega, by omega, by rw [hv, h]; decide⟩
    · have hv : pad pos = 2 := by unfold pad; rw [h]; decide
      exact ⟨by omega, by omega, by omega, by rw [hv, h]; decide⟩
    · have hv : pad pos = 1 := by unfold pad; rw [h]; decide
      exact ⟨by omega, by omega, by omega, by rw [hv, h]; decide⟩
  obtain ⟨f1, f2, f3, f4⟩ := hfacts
  refine ⟨by rw [f4], by omega, by omega, f3, fun r h1 h2 => by omega, ?_⟩
  conv_rhs => rw [parseContainer_eq]
  rw [pad_zero _ f3, add_zero, parseContainer_eq]

/-- C7 witness: the alignment facts instantiated at position 5. -/
theorem claim7_witness : pad 5 = 3 ∧ (5 : ℤ) + pad 5 ≤ 8 :=
  ⟨by decide, (claim7_container_alignment [] 0 5).2.2.2.2.1 8 (by norm_num)
    (by decide)⟩

/-- C8: for every byte sequence, decoding terminates with a value or an
error (the decoder is a total function); and a child container parse
always starts strictly past its parent container position, since the
values area lies past the header and the entry words and the running
offset is non-negative. -/
theorem claim8_total (d : Buffer) :
    ((∃ v, parse_jsonb d = .ok v) ∨ (∃ e, parse_jsonb d = .error e)) ∧
    (∀ (pos vstart voff : ℤ) (cnt : Nat), 0 ≤ voff → cnt ≠ 0 →
      vstart = pos + 4 + 4 * (cnt : ℤ) → pos < vstart + voff) := by
  constructor
  · rcases h : parse_jsonb d with e | v
    · exact Or.inr ⟨e, rfl⟩
    · exact Or.inl ⟨v, rfl⟩
  · intro pos vstart voff cnt h1 h2 h3
    have : (1 : ℤ) ≤ (cnt : ℤ) := by omega
    omega

/-- C8 witness: totality and the position bound at a concrete buffer and
concrete loop state. -/
theorem claim8_witness :
    ((∃ v, parse_jsonb bufScalarTrue = .ok v) ∨
      (∃ e, parse_jsonb bufScalarTrue = .error e)) ∧
    (0 : ℤ) < 8 + 0 := by
  have h := claim8_total bufScalarTrue
  exact ⟨h.1, h.2 0 8 0 1 (by norm_num) (by norm_num) (by norm_num)⟩

/-- C9: the running value-area offset stays non-negative throughout a
container decode: after each entry it equals the raw field when HAS_OFF
is set and the previous offset plus the raw field otherwise, both
non-negative, so every child position `values_start + voff` is at or
after the start of the values area. -/
theorem claim9_voff_invariant (je : Nat) (voff : ℤ) (hv : 0 ≤ voff) :
    0 ≤ voff + entryFlen je voff ∧
    voff + entryFlen je voff =
      (if jbe_has_off je then (jbe_offlenfld je : ℤ)
       else voff + (jbe_offlenfld je : ℤ)) ∧
    (∀ vstart : ℤ, vstart ≤ vstart + voff) := by
  refine ⟨entryFlen_nonneg_add je voff hv, ?_, fun vstart => by omega⟩
  unfold entryFlen
  split <;> ring

/-- C9 witness: the invariant instantiated at a HAS_OFF entry with raw
field 5 and running offset 2. -/
theorem claim9_witness : (0 : ℤ) ≤ 2 ∧ 0 ≤ 2 + entryFlen 0x80000005 2 :=
  ⟨by norm_num, (claim9_voff_invariant 0x80000005 2 (by norm_num)).1⟩

/-- C10: on the 4-byte buffer whose header `0x50000000` has the array and
scalar bits set but count 0, the decoder raises the out-of-range list
indexing error from `rv[0]`, not one of the decode errors: the size-1
requirement on scalar roots is never validated. -/
theorem claim10_scalar_empty_indexerror :
    parse_jsonb bufScalarEmpty = .error .indexError := by
  unfold parse_jsonb parseRoot
  rw [show get32 bufScalarEmpty 0 = some 0x50000000 from rfl]
  dsimp only
  rw [show jc_is_array 0x50000000 = true from rfl, if_pos rfl]
  have harr : parseArray bufScalarEmpty 0x50000000 0 = .ok [] := by
    rw [parseArray_eq]
    simp [show jc_size 0x50000000 = 0 from by decide]
  rw [harr]
  dsimp only
  rw [show jc_is_scalar 0x50000000 = true from rfl, if_pos rfl]



/-- C1: for every container entry, the decoder computes the child length
from the JEntry hybrid scheme: with `raw = je & 0x0FFFFFFF`, if the
HAS_OFF bit is set then `len = raw - voff`, otherwise `len = raw`; the
child is parsed at absolute position `values_start + voff`, and `voff`
advances by `len` after the entry. -/
theorem claim1_hybrid_offlen (d : Buffer) (vstart : ℤ) (c : Nat)
    (epos voff : ℤ) (hvs : epos + 4 * ((c + 1 : Nat) : ℤ) ≤ vstart)
    (hv : 0 ≤ voff) (je : Nat) (hje : get32 d epos = some je) :
    jbe_offlenfld je = je &&& 0x0FFFFFFF ∧
    entryFlen je voff =
      (if jbe_has_off je then (jbe_offlenfld je : ℤ) - voff
       else (jbe_offlenfld je : ℤ)) ∧
    parseEntries d vstart (c + 1) epos voff hvs hv =
      match parseEntry d je (vstart + voff) (entryFlen je voff) with
      | .error e => .error e
      | .ok obj =>
        match parseEntries d vstart c (epos + 4) (voff + entryFlen je voff)
            (by omega) (entryFlen_nonneg_add je voff hv) with
        | .error e => .error e
        | .ok rest => .ok (obj :: rest) := by
  refine ⟨rfl, rfl, ?_⟩
  rw [parseEntries_succ, hje]

/-- C1 witness: the hybrid-length step at the single bool entry of the
wrapped scalar buffer. -/
theorem claim1_witness :
    get32 bufScalarTrue 4 = some 0x30000000 ∧
    parseEntries bufScalarTrue 8 (0 + 1) 4 0 (by omega) (le_refl 0) =
      .ok [.jbool true] := by
  constructor
  · rfl
  · have h := (claim1_hybrid_offlen bufScalarTrue 8 0 4 0 (by omega)
      (le_refl 0) 0x30000000 rfl).2.2
    rw [h, parseEntry_isbool_true _ _ _
      (show jbe_type 0x30000000 = JENTRY_ISBOOL_TRUE from by decide),
      parseEntries_zero]

/-- C2: a buffer whose root JContainer header has both IS_ARRAY and
IS_SCALAR set and count 1 decodes to the sole element of the one-element
array, the bare scalar itself, not a one-element array. -/
theorem claim2_scalar_unwrap (d : Buffer) (jc : Nat) (res : List JValue)
    (h0 : get32 d 0 = some jc) (ha : jc_is_array jc = true)
    (hs : jc_is_scalar jc = true) (h1 : jc_size jc = 1)
    (harr : parseArray d jc 0 = .ok res) :
    ∃ v, res = [v] ∧ parse_jsonb d = .ok v := by
  have hlen : res.length = 1 := (parseArray_length d jc 0 res harr).trans h1
  match res, hlen with
  | [v], _ =>
    refine ⟨v, rfl, ?_⟩
    unfold parse_jsonb parseRoot
    rw [h0]
    try dsimp only
    rw [ha, if_pos rfl, harr]
    try dsimp only
    rw [hs, if_pos rfl]

/-- C2 witness: the 8-byte buffer with header `0x50000001` and JEntry
`0x30000000` decodes to the bare boolean `true`. -/
theorem claim2_witness : parse_jsonb bufScalarTrue = .ok (.jbool true) := by
  have harr : parseArray bufScalarTrue 0x50000001 0 = .ok [.jbool true] := by
    rw [parseArray_eq]
    simp only [show jc_size 0x50000001 = 1 from by decide]
    norm_num
    rw [parseEntries_succ]
    simp only [show get32 bufScalarTrue 4 = some 0x30000000 from rfl]
    try dsimp only
    rw [parseEntry_isbool_true _ _ _
      (show jbe_type 0x30000000 = JENTRY_ISBOOL_TRUE from by decide),
      parseEntries_zero]
  obtain ⟨v, hv, hd⟩ := claim2_scalar_unwrap bufScalarTrue 0x50000001
    [.jbool true] rfl (by decide) (by decide) (by decide) harr
  have : JValue.jbool true = v := by injection hv
  rw [← this] at hd
  exact hd

/-- C6 (amended): the decoder has no depth cap and no TooDeep error; a
well-formed buffer of nested one-element arrays decodes successfully at
every nesting depth, the recursion being bounded by the input size
alone. -/
theorem claim6_no_depth_cap (n : Nat) :
    parse_jsonb (nestFrom n) = .ok (nestVal n) :=
  nest_decode n

/-- C6 counterexample: the buffer of nesting depth 1002 (beyond the
recommended cap of 1000) decodes to a value; it does not return a
TooDeep error (no such error exists in the code). -/
theorem claim6_counterexample :
    parse_jsonb (nestFrom 1001) = .ok (nestVal 1001) :=
  nest_decode 1001



/-- C3 (amended): the string reader is not bounds-checked: the Python
slice clamps to the available bytes, so a declared length running past
the buffer yields the decoded prefix of the remaining bytes rather than
an error; the only failure `_parse_string` can raise is the strict utf-8
decode error; a zero-length entry decodes to the empty string. -/
theorem claim3_clamped_strings (d : Buffer) (pos len : ℤ) :
    (∀ e, parseString d pos len = .error e → e = .unicodeDecodeError) ∧
    parseString d pos 0 = .ok (.jstr []) ∧
    (0 ≤ pos → pos ≤ (d.length : ℤ) → (d.length : ℤ) ≤ pos + len →
      pySlice d pos (pos + len) = d.drop pos.toNat) ∧
    (utf8Decode (pySlice d pos (pos + len)) = none →
      parseString d pos len = .error .unicodeDecodeError) := by
  refine ⟨?_, ?_, ?_, ?_⟩
  · intro e h
    unfold parseString at h
    split at h
    · cases h
    · cases h
      rfl
  · unfold parseString
    have hempty : pySlice d pos (pos + 0) = [] := by
      unfold pySlice
      rw [add_zero]
      apply List.drop_eq_nil_of_le
      simp [List.length_take]
    rw [hempty]
    rfl
  · intro h0 h1 h2
    unfold pySlice pyBound
    rw [if_neg (by omega), if_neg (by omega)]
    have hb : min (pos + len).toNat d.length = d.length := by omega
    have ha : min pos.toNat d.length = pos.toNat := by omega
    rw [hb, ha, List.take_length]
  · intro h
    unfold parseString
    rw [h]

/-- C3 counterexample: the scalar-string buffer whose JEntry announces 5
bytes over a buffer holding only 2 decodes successfully to the available
prefix `hi` instead of failing with a bounds error. -/
theorem claim3_counterexample :
    parse_jsonb bufTruncStr = .ok (.jstr [104, 105]) := by
  have harr : parseArray bufTruncStr 0x50000001 0 = .ok [.jstr [104, 105]] := by
    rw [parseArray_eq]
    simp only [show jc_size 0x50000001 = 1 from by decide]
    norm_num
    rw [parseEntries_succ]
    simp only [show get32 bufTruncStr 4 = some 5 from rfl]
    try dsimp only
    rw [parseEntry_isstring _ _ _
      (show jbe_type 5 = JENTRY_ISSTRING from by decide), parseEntries_zero]
    rfl
  unfold parse_jsonb parseRoot
  rw [show get32 bufTruncStr 0 = some 0x50000001 from rfl]
  dsimp only
  rw [show jc_is_array 0x50000001 = true from rfl, if_pos rfl, harr]
  dsimp only
  rw [show jc_is_scalar 0x50000001 = true from rfl, if_pos rfl]

/-- C3 witness: the clamping facts instantiated on the 2-byte buffer
`hi` read with declared length 5 at position 0, and the empty string at
length 0. -/
theorem claim3_witness :
    (0 : ℤ) ≤ 0 ∧ (0 : ℤ) ≤ (([104, 105] : Buffer).length : ℤ) ∧
    ((([104, 105] : Buffer).length : ℤ)) ≤ 0 + 5 ∧
    pySlice [104, 105] 0 (0 + 5) = List.drop (0 : ℤ).toNat [104, 105] ∧
    parseString [104, 105] 0 0 = .ok (.jstr []) := by
  have h := claim3_clamped_strings [104, 105] 0 5
  exact ⟨by norm_num, by norm_num, by norm_num,
    h.2.2.1 (by norm_num) (by norm_num) (by norm_num),
    (claim3_clamped_strings [104, 105] 0 0).2.1⟩

/-- C4: an object of declared count N is decoded by reading 2N JEntries
with the shared entry loop, taking the first N decoded values as keys and
the next N as values, pairing `key[i]` with `value[i]`; when two keys are
equal the pair with the larger index determines the value in the
resulting map. -/
theorem claim4_object_pairing :
    (∀ (d : Buffer) (jc : Nat) (pos : ℤ), jc_size jc ≠ 0 →
      parseObject d jc pos =
        match parseEntries d (pos + 4 + 4 * (jc_size jc : ℤ) * 2)
            (jc_size jc * 2) (pos + 4) 0 (by omega) (le_refl 0) with
        | .error e => .error e
        | .ok res =>
          match mkDict ((res.take (jc_size jc)).zip (res.drop (jc_size jc))) with
          | .error e => .error e
          | .ok m => .ok (.jobj m)) ∧
    (∀ (d : Buffer) (vstart : ℤ) (cnt : Nat) (epos voff : ℤ) hvs hv res,
      parseEntries d vstart cnt epos voff hvs hv = .ok res →
      res.length = cnt) ∧
    (∀ (pairs m : List (JValue × JValue)) (k : JValue), mkDict pairs = .ok m →
      pyLookup m k = (pairs.reverse.find? (fun kv => keyEq kv.1 k)).map (·.2)) := by
  refine ⟨?_, ?_, ?_⟩
  · intro d jc pos h
    rw [parseObject_eq, if_neg h]
  · intro d vstart cnt epos voff hvs hv res h
    exact parseEntries_length d vstart cnt epos voff hvs hv res h
  · intro pairs m k h
    exact mkDict_lookup pairs m h k

/-- C4 witness: the object buffer with two equal keys `a` decodes to a
map holding the second (larger-index) value, and looking the key up
returns that value. -/
theorem claim4_witness :
    parseObject bufDupKeys 0x20000002 0 =
      .ok (.jobj [(.jstr [97], .jbool true)]) ∧
    pyLookup [(.jstr [97], .jbool true)] (.jstr [97]) =
      some (.jbool true) := by
  have h1 := claim4_object_pairing.1 bufDupKeys 0x20000002 0 (by decide)
  have hent : parseEntries bufDupKeys
      ((0 : ℤ) + 4 + 4 * ((jc_size 0x20000002 : Nat) : ℤ) * 2)
      (jc_size 0x20000002 * 2) ((0 : ℤ) + 4) 0 (by omega) (le_refl 0) =
      .ok [.jstr [97], .jstr [97], .jnull, .jbool true] := by
    simp only [show jc_size 0x20000002 = 2 from by decide]
    norm_num
    rw [parseEntries_succ]
    simp only [show get32 bufDupKeys 4 = some 1 from rfl]
    try dsimp only
    rw [parseEntry_isstring _ _ _
      (show jbe_type 1 = JENTRY_ISSTRING from by decide)]
    rw [parseEntries_succ]
    simp only [show get32 bufDupKeys (4 + 4 : ℤ) = some 1 from rfl]
    try dsimp only
    rw [parseEntry_isstring _ _ _
      (show jbe_type 1 = JENTRY_ISSTRING from by decide)]
    rw [parseEntries_succ]
    simp only [show get32 bufDupKeys (4 + 4 + 4 : ℤ) = some 0x40000000 from rfl]
    try dsimp only
    rw [parseEntry_isnull _ _ _
      (show jbe_type 0x40000000 = JENTRY_ISNULL from by decide)]
    rw [parseEntries_succ]
    simp only [show get32 bufDupKeys (4 + 4 + 4 + 4 : ℤ) = some 0x30000000 from rfl]
    try dsimp only
    rw [parseEntry_isbool_true _ _ _
      (show jbe_type 0x30000000 = JENTRY_ISBOOL_TRUE from by decide)]
    rw [parseEntries_zero]
    rfl
  rw [hent] at h1
  refine ⟨h1.trans (by rfl), ?_⟩
  have h3 := claim4_object_pairing.2.2
    [(.jstr [97], .jnull), (.jstr [97], .jbool true)]
    [(.jstr [97], .jbool true)] (.jstr [97]) (by rfl)
  rw [h3]
  rfl

/-- C5 (amended): the decoder never validates key entry types: building
the object map succeeds exactly when every decoded key is hashable (any
scalar, string or not), and the only key-related failure is the
`TypeError` raised when hashing an unhashable (container) key. -/
theorem claim5_no_key_validation (pairs : List (JValue × JValue)) :
    ((∃ m, mkDict pairs = .ok m) ↔
      (pairs.all fun kv => isHashable kv.1) = true) ∧
    (∀ e, mkDict pairs = .error e → e = .typeError) :=
  ⟨mkDictAux_ok_iff pairs [], fun e h => mkDictAux_error pairs [] e h⟩

/-- C5 counterexample: the object buffer whose single key entry is the
boolean `true` decodes successfully to `\x7bTrue: None\x7d`; no error is
raised for the non-string key. -/
theorem claim5_counterexample :
    parse_jsonb bufBoolKey = .ok (.jobj [(.jbool true, .jnull)]) := by
  have hobj : parseObject bufBoolKey 0x20000001 0 =
      .ok (.jobj [(.jbool true, .jnull)]) := by
    rw [parseObject_eq, if_neg (by decide)]
    simp only [show jc_size 0x20000001 = 1 from by decide]
    norm_num
    rw [parseEntries_succ]
    simp only [show get32 bufBoolKey 4 = some 0x30000000 from rfl]
    try dsimp only
    rw [parseEntry_isbool_true _ _ _
      (show jbe_type 0x30000000 = JENTRY_ISBOOL_TRUE from by decide)]
    rw [parseEntries_succ]
    simp only [show get32 bufBoolKey (4 + 4 : ℤ) = some 0x40000000 from rfl]
    try dsimp only
    rw [parseEntry_isnull _ _ _
      (show jbe_type 0x40000000 = JENTRY_ISNULL from by decide)]
    rw [parseEntries_zero]
    rfl
  unfold parse_jsonb parseRoot
  rw [show get32 bufBoolKey 0 = some 0x20000001 from rfl]
  dsimp only
  rw [show jc_is_array 0x20000001 = false from rfl, if_neg (by simp)]
  rw [show jc_is_object 0x20000001 = true from rfl, if_pos rfl]
  exact hobj

/-- C5 witness: a boolean key is hashable, so the map build succeeds. -/
theorem claim5_witness :
    ([((.jbool true : JValue), (.jnull : JValue))].all
      fun kv => isHashable kv.1) = true ∧
    ∃ m, mkDict [((.jbool true : JValue), (.jnull : JValue))] = .ok m :=
  ⟨rfl, (claim5_no_key_validation _).1.mpr rfl⟩


end JsonbParser
